import Mathlib

set_option autoImplicit false

/-!
Shallow embedding of the minicom chat core (client-side synchronization
engine) and proofs about its message merge/ordering algorithm, liveness
tracker, inbox patch engine, typing signal controller and optimistic send
gate.  Sources embedded:
  packages/chat-core/src/types.ts
  packages/chat-core/src/utils/messages.ts
  packages/chat-core/src/liveness.ts
  packages/chat-core/src/utils/inbox.ts
  the typing controller module (createTypingController)
  apps/agent/src/hooks/useAgentThread.ts (sendInternal)
JS numbers that hold timestamps/sequence values are modelled as Int,
strings as String, `T | null` and `T | undefined` as Option T.
-/

namespace Minicom

/-! ## Data model (types.ts) -/

inductive ParticipantRole where
  | visitor
  | agent
deriving DecidableEq, Repr

inductive DeliveryState where
  | sending
  | sent
  | failed
deriving DecidableEq, Repr

inductive ThreadStatus where
  | open_
  | closed
deriving DecidableEq, Repr

inductive RealtimeChannelStatus where
  | CLOSED
  | CHANNEL_ERROR
  | TIMED_OUT
  | JOINING
  | SUBSCRIBED
deriving DecidableEq, Repr

structure Message where
  id : String
  clientId : String
  threadId : String
  senderId : String
  senderRole : ParticipantRole
  body : String
  createdAt : Int
  seq : Int
  deliveryState : DeliveryState
deriving DecidableEq, Repr

structure Thread where
  id : String
  status : ThreadStatus
  createdAt : Int
  updatedAt : Int
deriving DecidableEq, Repr

structure InboxThread where
  thread : Thread
  unreadCount : Int
  lastMessage : Option Message
deriving DecidableEq, Repr

/-! ## JS Map model

A JavaScript Map preserves insertion order: `set` on a fresh key appends
at the end, `set` on a present key updates the value in place, `delete`
removes the entry.  We model it as an association list. -/

def jsMapGet {β : Type} (k : String) : List (String × β) → Option β
  | [] => none
  | (k', v) :: rest => if k' = k then some v else jsMapGet k rest

def jsMapSet {β : Type} (k : String) (v : β) : List (String × β) → List (String × β)
  | [] => [(k, v)]
  | (k', v') :: rest => if k' = k then (k, v) :: rest else (k', v') :: jsMapSet k v rest

def jsMapDelete {β : Type} (k : String) : List (String × β) → List (String × β)
  | [] => []
  | (k', v') :: rest => if k' = k then rest else (k', v') :: jsMapDelete k rest

/-! ## Message merge engine (utils/messages.ts) -/

/-- JS `String.prototype.trim()`: strip leading and trailing whitespace.
Defined over the underlying character list so that the kernel can
evaluate it on concrete strings. -/
def jsTrim (s : String) : String :=
  ⟨((s.data.dropWhile Char.isWhitespace).reverse.dropWhile Char.isWhitespace).reverse⟩

/-- `stableClientKey`: `threadId + ":" + (clientId.trim() || id)`.  The JS
`||` falls back to `id` exactly when the trimmed client id is the empty
string. -/
def stableClientKey (message : Message) : String :=
  let clientId := if jsTrim message.clientId = "" then message.id else jsTrim message.clientId
  message.threadId ++ ":" ++ clientId

/-- The object spread of `existing` under `incoming`: every field of
`Message` is required, so the spread result is `incoming` itself. -/
def spreadMessage (_existing incoming : Message) : Message :=
  incoming

/-- `mergeMessageState` from utils/messages.ts. -/
def mergeMessageState (existing incoming : Message) : Message :=
  if existing.deliveryState = DeliveryState.sent ∧ incoming.deliveryState ≠ DeliveryState.sent then
    existing
  else if incoming.deliveryState = DeliveryState.sent ∧ existing.deliveryState ≠ DeliveryState.sent then
    spreadMessage existing incoming
  else
    spreadMessage existing incoming

/-- The sort key of `sortMessages`: compare `createdAt`, then `seq`, then
`id` (localeCompare modelled as lexicographic string comparison), each
ascending, i.e. the lexicographic order on the triple. -/
def sortKey (m : Message) : Lex (Int × Lex (Int × String)) :=
  toLex (m.createdAt, toLex (m.seq, m.id))

/-- `left` sorts no later than `right` under the comparator of
`sortMessages` (comparator result ≤ 0). -/
def msgLE (left right : Message) : Prop :=
  sortKey left ≤ sortKey right

instance : DecidableRel msgLE := fun a b =>
  inferInstanceAs (Decidable (sortKey a ≤ sortKey b))

instance : IsTotal Message msgLE :=
  ⟨fun a b => le_total (sortKey a) (sortKey b)⟩

instance : IsTrans Message msgLE :=
  ⟨fun _ _ _ hab hbc => le_trans hab hbc⟩

/-- Strict version of the message order, used to pin sorted outputs down
uniquely when all sort keys are distinct. -/
def msgLT (left right : Message) : Prop :=
  sortKey left < sortKey right

instance : IsAntisymm Message msgLT :=
  ⟨fun _ _ hab hba => absurd hba (not_lt_of_gt hab)⟩

/-- `sortMessages`: JS `Array.prototype.sort` is a stable sort; insertion
sort is the stable sort for the same total preorder. -/
def sortMessages (messages : List Message) : List Message :=
  List.insertionSort msgLE messages

/-- One step of the fold in `mergeMessages`: look the message's stable
key up in the accumulated map, insert the message if absent, otherwise
merge the states. -/
def mergeStep (acc : List (String × Message)) (message : Message) : List (String × Message) :=
  let key := stableClientKey message
  match jsMapGet key acc with
  | none => jsMapSet key message acc
  | some existing => jsMapSet key (mergeMessageState existing message) acc

/-- `mergeMessages(...sets)`: skip `undefined` sets, fold every message
into the map keyed by `stableClientKey`, then sort the map's values. -/
def mergeMessages (sets : List (Option (List Message))) : List Message :=
  let byClientKey :=
    sets.foldl
      (fun acc set =>
        match set with
        | none => acc
        | some messages => messages.foldl mergeStep acc)
      []
  sortMessages (byClientKey.map Prod.snd)

/-! ## Association-list map lemmas -/

theorem jsMapGet_set_self {β : Type} (k : String) (v : β) (m : List (String × β)) :
    jsMapGet k (jsMapSet k v m) = some v := by
  induction m with
  | nil => simp [jsMapGet, jsMapSet]
  | cons p rest ih =>
    obtain ⟨k', v'⟩ := p
    by_cases h : k' = k
    · simp [jsMapGet, jsMapSet, h]
    · simp [jsMapGet, jsMapSet, h, ih]

theorem jsMapGet_set_ne {β : Type} {k' k : String} (v : β) (m : List (String × β))
    (h : k' ≠ k) : jsMapGet k' (jsMapSet k v m) = jsMapGet k' m := by
  induction m with
  | nil => simp [jsMapGet, jsMapSet, Ne.symm h]
  | cons p rest ih =>
    obtain ⟨k₀, v₀⟩ := p
    by_cases hk : k₀ = k
    · subst hk
      simp [jsMapGet, jsMapSet, Ne.symm h]
    · simp [jsMapGet, jsMapSet, hk, ih]

theorem jsMapSet_of_get_some {β : Type} {k : String} {v : β} {m : List (String × β)}
    (h : jsMapGet k m = some v) : jsMapSet k v m = m := by
  induction m with
  | nil => simp [jsMapGet] at h
  | cons p rest ih =>
    obtain ⟨k₀, v₀⟩ := p
    by_cases hk : k₀ = k
    · subst hk
      simp [jsMapGet] at h
      simp [jsMapSet, h]
    · simp [jsMapGet, hk] at h
      simp [jsMapSet, hk, ih h]

theorem jsMapGet_eq_none_iff {β : Type} {k : String} {m : List (String × β)} :
    jsMapGet k m = none ↔ k ∉ m.map Prod.fst := by
  induction m with
  | nil => simp [jsMapGet]
  | cons p rest ih =>
    obtain ⟨k₀, v₀⟩ := p
    by_cases hk : k₀ = k
    · subst hk
      simp [jsMapGet]
    · simp [jsMapGet, hk, ih, Ne.symm hk]

theorem jsMapSet_of_get_none {β : Type} {k : String} (v : β) {m : List (String × β)}
    (h : jsMapGet k m = none) : jsMapSet k v m = m ++ [(k, v)] := by
  induction m with
  | nil => simp [jsMapSet]
  | cons p rest ih =>
    obtain ⟨k₀, v₀⟩ := p
    by_cases hk : k₀ = k
    · subst hk
      simp [jsMapGet] at h
    · simp [jsMapGet, hk] at h
      simp [jsMapSet, hk, ih h]

theorem map_fst_jsMapSet_of_mem {β : Type} {k : String} (v : β) {m : List (String × β)}
    (h : k ∈ m.map Prod.fst) : (jsMapSet k v m).map Prod.fst = m.map Prod.fst := by
  induction m with
  | nil => simp at h
  | cons p rest ih =>
    obtain ⟨k₀, v₀⟩ := p
    by_cases hk : k₀ = k
    · subst hk
      simp [jsMapSet]
    · rw [List.map_cons, List.mem_cons] at h
      rcases h with h | h
      · exact absurd h.symm hk
      · simp [jsMapSet, hk, ih h]

theorem mem_of_mem_jsMapSet {β : Type} {k : String} {v : β} {m : List (String × β)}
    {p : String × β} (h : p ∈ jsMapSet k v m) : p = (k, v) ∨ p ∈ m := by
  induction m with
  | nil => simpa [jsMapSet] using h
  | cons q rest ih =>
    obtain ⟨k₀, v₀⟩ := q
    by_cases hk : k₀ = k
    · subst hk
      simp [jsMapSet] at h
      rcases h with h | h
      · exact Or.inl h
      · exact Or.inr (List.mem_cons_of_mem _ h)
    · simp [jsMapSet, hk] at h
      rcases h with h | h
      · exact Or.inr (by simp [h])
      · rcases ih h with h' | h'
        · exact Or.inl h'
        · exact Or.inr (List.mem_cons_of_mem _ h')

theorem mem_of_jsMapGet_some {β : Type} {k : String} {v : β} {m : List (String × β)}
    (h : jsMapGet k m = some v) : (k, v) ∈ m := by
  induction m with
  | nil => simp [jsMapGet] at h
  | cons p rest ih =>
    obtain ⟨k₀, v₀⟩ := p
    by_cases hk : k₀ = k
    · subst hk
      simp [jsMapGet] at h
      simp [h]
    · simp [jsMapGet, hk] at h
      exact List.mem_cons_of_mem _ (ih h)

theorem jsMapGet_of_mem_of_nodup {β : Type} {k : String} {v : β} {m : List (String × β)}
    (nd : (m.map Prod.fst).Nodup) (h : (k, v) ∈ m) : jsMapGet k m = some v := by
  induction m with
  | nil => simp at h
  | cons p rest ih =>
    obtain ⟨k₀, v₀⟩ := p
    rw [List.map_cons, List.nodup_cons] at nd
    rcases List.mem_cons.mp h with h | h
    · have hk : k₀ = k := (Prod.ext_iff.mp h.symm).1
      have hv : v₀ = v := (Prod.ext_iff.mp h.symm).2
      subst hk
      subst hv
      simp [jsMapGet]
    · have hk : k₀ ≠ k := by
        intro hc
        subst hc
        exact nd.1 (by simpa using List.mem_map_of_mem Prod.fst h)
      simp [jsMapGet, hk, ih nd.2 h]

/-! ## Merge fold invariants -/

/-- The fold of `mergeMessages` over the flattened input. -/
def mergeMap (L : List Message) : List (String × Message) :=
  L.foldl mergeStep []

theorem mergeMap_append_singleton (L : List Message) (x : Message) :
    mergeMap (L ++ [x]) = mergeStep (mergeMap L) x := by
  simp [mergeMap, List.foldl_append]

theorem mergeStep_of_get_none {acc : List (String × Message)} {x : Message}
    (h : jsMapGet (stableClientKey x) acc = none) :
    mergeStep acc x = acc ++ [(stableClientKey x, x)] := by
  simp only [mergeStep, h]
  exact jsMapSet_of_get_none _ h

theorem mergeStep_of_get_some {acc : List (String × Message)} {x existing : Message}
    (h : jsMapGet (stableClientKey x) acc = some existing) :
    mergeStep acc x = jsMapSet (stableClientKey x) (mergeMessageState existing x) acc := by
  simp only [mergeStep, h]

/-- `mergeMessageState` always returns one of its two arguments. -/
theorem mergeMessageState_eq_or (existing incoming : Message) :
    mergeMessageState existing incoming = existing ∨
      mergeMessageState existing incoming = incoming := by
  unfold mergeMessageState spreadMessage
  split
  · exact Or.inl rfl
  · split
    · exact Or.inr rfl
    · exact Or.inr rfl

/-- Invariant of the merge fold: the accumulated map has pairwise
distinct keys, every entry is keyed by its message's stable key, and
every stored message comes from the input list. -/
theorem mergeMap_inv (L : List Message) :
    ((mergeMap L).map Prod.fst).Nodup ∧
      ∀ p ∈ mergeMap L, stableClientKey p.2 = p.1 ∧ p.2 ∈ L := by
  induction L using List.reverseRecOn with
  | nil => simp [mergeMap, mergeStep]
  | append_singleton L x ih =>
    obtain ⟨ndIH, memIH⟩ := ih
    rw [mergeMap_append_singleton]
    cases hget : jsMapGet (stableClientKey x) (mergeMap L) with
    | none =>
      rw [mergeStep_of_get_none hget]
      constructor
      · simp only [List.map_append, List.map_cons, List.map_nil]
        refine List.Nodup.append ndIH (by simp) ?_
        intro a ha hb
        simp at hb
        subst hb
        exact (jsMapGet_eq_none_iff.mp hget) ha
      · intro p hp
        rcases List.mem_append.mp hp with hp | hp
        · obtain ⟨h1, h2⟩ := memIH p hp
          exact ⟨h1, List.mem_append_left _ h2⟩
        · simp at hp
          subst hp
          simp
    | some existing =>
      rw [mergeStep_of_get_some hget]
      have hkeymem : stableClientKey x ∈ (mergeMap L).map Prod.fst := by
        simpa using List.mem_map_of_mem Prod.fst (mem_of_jsMapGet_some hget)
      constructor
      · rw [map_fst_jsMapSet_of_mem _ hkeymem]
        exact ndIH
      · intro p hp
        rcases mem_of_mem_jsMapSet hp with hp | hp
        · subst hp
          obtain ⟨hk, hmem⟩ := memIH _ (mem_of_jsMapGet_some hget)
          rcases mergeMessageState_eq_or existing x with he | he
          · rw [he]
            exact ⟨hk, List.mem_append_left _ hmem⟩
          · rw [he]
            exact ⟨rfl, by simp⟩
        · obtain ⟨h1, h2⟩ := memIH p hp
          exact ⟨h1, List.mem_append_left _ h2⟩

/-- The multiset of messages actually folded by `mergeMessages`:
`undefined` sets contribute nothing, the rest are concatenated in
argument order. -/
def flattenSets (sets : List (Option (List Message))) : List Message :=
  (sets.map (fun set => set.getD [])).flatten

theorem foldl_sets_eq_flatten (sets : List (Option (List Message)))
    (acc : List (String × Message)) :
    sets.foldl
        (fun acc set =>
          match set with
          | none => acc
          | some messages => messages.foldl mergeStep acc)
        acc
      = (flattenSets sets).foldl mergeStep acc := by
  induction sets generalizing acc with
  | nil => rfl
  | cons os rest ih =>
    have hstep :
        (match os with
          | none => acc
          | some messages => messages.foldl mergeStep acc)
          = (os.getD []).foldl mergeStep acc := by
      cases os <;> rfl
    simp only [List.foldl_cons, hstep, ih, flattenSets, List.map_cons, List.flatten_cons,
      List.foldl_append]

/-- `mergeMessages` is the sorted value list of the merge fold over the
flattened inputs. -/
theorem mergeMessages_eq_flatten (sets : List (Option (List Message))) :
    mergeMessages sets = sortMessages ((mergeMap (flattenSets sets)).map Prod.snd) := by
  unfold mergeMessages mergeMap
  rw [foldl_sets_eq_flatten]

/-! ## Per-key characterization of the merge fold -/

theorem jsMapGet_append {β : Type} (k : String) (m₁ m₂ : List (String × β)) :
    jsMapGet k (m₁ ++ m₂) =
      match jsMapGet k m₁ with
      | some v => some v
      | none => jsMapGet k m₂ := by
  induction m₁ with
  | nil => simp [jsMapGet]
  | cons p rest ih =>
    obtain ⟨k₀, v₀⟩ := p
    by_cases hk : k₀ = k
    · simp [jsMapGet, hk]
    · simp [jsMapGet, hk, ih]

/-- Abbreviation for the per-key class filter used below. -/
def keyClass (k : String) (L : List Message) : List Message :=
  L.filter (fun m => decide (stableClientKey m = k))

/-- The value the merge fold stores under key `k` is the
`mergeMessageState`-fold of the input messages whose stable key is `k`,
in input order. -/
theorem jsMapGet_mergeMap (L : List Message) (k : String) :
    jsMapGet k (mergeMap L) =
      match keyClass k L with
      | [] => none
      | c :: cs => some (cs.foldl mergeMessageState c) := by
  induction L using List.reverseRecOn with
  | nil => rfl
  | append_singleton L x ih =>
    rw [mergeMap_append_singleton]
    by_cases hx : stableClientKey x = k
    · cases hget : jsMapGet (stableClientKey x) (mergeMap L) with
      | none =>
        rw [mergeStep_of_get_none hget, jsMapGet_append]
        rw [hx] at hget
        rw [hget] at ih
        have hclass : keyClass k L = [] := by
          cases hc : keyClass k L with
          | nil => rfl
          | cons c cs => rw [hc] at ih; exact absurd ih (by simp)
        rw [hget]
        have hcl : keyClass k (L ++ [x]) = [x] := by
          unfold keyClass
          rw [List.filter_append]
          rw [show L.filter (fun m => decide (stableClientKey m = k)) = [] from hclass]
          simp [hx]
        rw [hcl]
        simp [jsMapGet, hx]
      | some e =>
        rw [mergeStep_of_get_some hget]
        rw [hx] at hget
        rw [hget] at ih
        obtain ⟨c, cs, hc, he⟩ :
            ∃ c cs, keyClass k L = c :: cs ∧ cs.foldl mergeMessageState c = e := by
          cases hc : keyClass k L with
          | nil => rw [hc] at ih; exact absurd ih (by simp)
          | cons c cs =>
            rw [hc] at ih
            exact ⟨c, cs, rfl, by simpa using ih.symm⟩
        have hset : jsMapGet k (jsMapSet (stableClientKey x)
            (mergeMessageState e x) (mergeMap L)) = some (mergeMessageState e x) := by
          rw [hx]
          exact jsMapGet_set_self ..
        rw [hset]
        simp [keyClass, List.filter_append, hx]
        rw [show L.filter (fun m => decide (stableClientKey m = k)) = c :: cs from hc]
        simp [List.foldl_append, he]
    · have hclass : keyClass k (L ++ [x]) = keyClass k L := by
        simp [keyClass, List.filter_append, hx]
      rw [hclass, ← ih]
      cases hget : jsMapGet (stableClientKey x) (mergeMap L) with
      | none =>
        rw [mergeStep_of_get_none hget, jsMapGet_append]
        cases hgk : jsMapGet k (mergeMap L) with
        | none => simp [hgk, jsMapGet, hx]
        | some v => simp [hgk]
      | some e =>
        rw [mergeStep_of_get_some hget]
        exact jsMapGet_set_ne _ _ (fun hh => hx hh.symm)

/-! ## Order invariance of the per-key fold -/

theorem mergeMessageState_keep {e i : Message}
    (hs : e.deliveryState = DeliveryState.sent) (hi : i.deliveryState ≠ DeliveryState.sent) :
    mergeMessageState e i = e := by
  unfold mergeMessageState
  rw [if_pos ⟨hs, hi⟩]

theorem mergeMessageState_incoming {e i : Message}
    (h : ¬(e.deliveryState = DeliveryState.sent ∧ i.deliveryState ≠ DeliveryState.sent)) :
    mergeMessageState e i = i := by
  unfold mergeMessageState spreadMessage
  rw [if_neg h]
  split <;> rfl

theorem mergeMessageState_self (c : Message) : mergeMessageState c c = c := by
  rcases mergeMessageState_eq_or c c with h | h <;> exact h

/-- If a class contains a "sent" message `S` and every "sent" member of
the class equals `S`, the fold of the class resolves to `S`. -/
theorem foldl_mms_of_sent {S : Message} (hS : S.deliveryState = DeliveryState.sent) :
    ∀ (cs : List Message) (c : Message),
      (∀ x ∈ c :: cs, x.deliveryState = DeliveryState.sent → x = S) →
      S ∈ c :: cs →
      cs.foldl mergeMessageState c = S := by
  intro cs
  induction cs with
  | nil =>
    intro c _hall hmem
    simpa using (List.mem_singleton.mp hmem).symm
  | cons b cs' ih =>
    intro c hall hmem
    rw [List.foldl_cons]
    have hmemb : b ∈ c :: b :: cs' := by simp
    have hmemc : c ∈ c :: b :: cs' := by simp
    have hstep : mergeMessageState c b = S ∨ S ∈ cs' := by
      rcases List.mem_cons.mp hmem with hcS | hmem'
      · left
        subst hcS
        by_cases hb : b.deliveryState = DeliveryState.sent
        · rw [hall b hmemb hb, mergeMessageState_self]
        · exact mergeMessageState_keep hS hb
      · rcases List.mem_cons.mp hmem' with hbS | hcs'
        · left
          subst hbS
          by_cases hc : c.deliveryState = DeliveryState.sent
          · rw [hall c hmemc hc, mergeMessageState_self]
          · exact mergeMessageState_incoming (fun hcontra => hc hcontra.1)
        · exact Or.inr hcs'
    have hall' : ∀ x ∈ mergeMessageState c b :: cs',
        x.deliveryState = DeliveryState.sent → x = S := by
      intro x hx hxs
      rcases List.mem_cons.mp hx with hx | hx
      · subst hx
        rcases mergeMessageState_eq_or c b with hcb | hcb
        · rw [hcb] at hxs ⊢
          exact hall c hmemc hxs
        · rw [hcb] at hxs ⊢
          exact hall b hmemb hxs
      · exact hall x (by simp [hx]) hxs
    have hmem'' : S ∈ mergeMessageState c b :: cs' := by
      rcases hstep with h | h
      · simp [h]
      · simp [h]
    exact ih (mergeMessageState c b) hall' hmem''

/-- The fold of a class whose members are all equal stays at that value. -/
theorem foldl_mms_const : ∀ (cs : List Message) (c : Message),
    (∀ x ∈ c :: cs, x = c) → cs.foldl mergeMessageState c = c := by
  intro cs
  induction cs with
  | nil => intro c _; rfl
  | cons b cs' ih =>
    intro c hall
    have hb : b = c := hall b (by simp)
    rw [List.foldl_cons, hb, mergeMessageState_self]
    exact ih c (fun x hx => hall x (by
      rcases List.mem_cons.mp hx with hx | hx
      · simp [hx]
      · simp [hx]))

/-- Per-class order invariance: under the uniqueness side condition the
fold of a class is determined by its multiset of members. -/
theorem classFold_perm {c₁ c₂ : Message} {cs₁ cs₂ : List Message}
    (hperm : (c₁ :: cs₁).Perm (c₂ :: cs₂))
    (h1 : ∀ x ∈ c₁ :: cs₁, ∀ y ∈ c₁ :: cs₁,
      x = y ∨ (x.deliveryState = DeliveryState.sent ↔ y.deliveryState ≠ DeliveryState.sent)) :
    cs₁.foldl mergeMessageState c₁ = cs₂.foldl mergeMessageState c₂ := by
  by_cases hs : ∃ S ∈ c₁ :: cs₁, S.deliveryState = DeliveryState.sent
  · obtain ⟨S, hSmem, hSsent⟩ := hs
    have huniq : ∀ x ∈ c₁ :: cs₁, x.deliveryState = DeliveryState.sent → x = S := by
      intro x hx hxs
      rcases h1 x hx S hSmem with h | h
      · exact h
      · exact absurd hSsent (h.mp hxs)
    have h₁ : cs₁.foldl mergeMessageState c₁ = S :=
      foldl_mms_of_sent hSsent cs₁ c₁ huniq hSmem
    have h₂ : cs₂.foldl mergeMessageState c₂ = S :=
      foldl_mms_of_sent hSsent cs₂ c₂
        (fun x hx hxs => huniq x (hperm.mem_iff.mpr hx) hxs)
        (hperm.mem_iff.mp hSmem)
    rw [h₁, h₂]
  · push_neg at hs
    have hall : ∀ x ∈ c₁ :: cs₁, x = c₁ := by
      intro x hx
      rcases h1 x hx c₁ (by simp) with h | h
      · exact h
      · exact absurd (h.mpr (hs c₁ (by simp))) (hs x hx)
    have h₁ : cs₁.foldl mergeMessageState c₁ = c₁ := foldl_mms_const cs₁ c₁ hall
    have hc₂ : c₂ = c₁ := hall c₂ (hperm.mem_iff.mpr (by simp))
    have h₂ : cs₂.foldl mergeMessageState c₂ = c₂ :=
      foldl_mms_const cs₂ c₂ (fun x hx => by
        rw [hall x (hperm.mem_iff.mpr (by simp [hx])), hc₂])
    rw [h₁, h₂, hc₂]

theorem mem_keyClass {k : String} {x : Message} {L : List Message} :
    x ∈ keyClass k L ↔ x ∈ L ∧ stableClientKey x = k := by
  simp [keyClass, List.mem_filter]

/-- Under the per-key uniqueness side condition, the merge fold's map is
key-wise invariant under permutation of the input messages. -/
theorem jsMapGet_mergeMap_perm {L₁ L₂ : List Message} (hperm : L₁.Perm L₂)
    (h1 : ∀ x ∈ L₁, ∀ y ∈ L₁, stableClientKey x = stableClientKey y →
      x = y ∨ (x.deliveryState = DeliveryState.sent ↔ y.deliveryState ≠ DeliveryState.sent))
    (k : String) :
    jsMapGet k (mergeMap L₁) = jsMapGet k (mergeMap L₂) := by
  rw [jsMapGet_mergeMap, jsMapGet_mergeMap]
  have hfp : (keyClass k L₁).Perm (keyClass k L₂) := hperm.filter _
  cases hc₁ : keyClass k L₁ with
  | nil =>
    rw [hc₁] at hfp
    rw [hfp.symm.eq_nil]
  | cons c₁ cs₁ =>
    rw [hc₁] at hfp
    cases hc₂ : keyClass k L₂ with
    | nil =>
      rw [hc₂] at hfp
      exact absurd hfp.eq_nil (by simp)
    | cons c₂ cs₂ =>
      rw [hc₂] at hfp
      have hmem : ∀ x ∈ c₁ :: cs₁, x ∈ L₁ ∧ stableClientKey x = k := by
        intro x hx
        rw [← hc₁] at hx
        exact mem_keyClass.mp hx
      have hfold := classFold_perm hfp (fun x hx y hy =>
        h1 x (hmem x hx).1 y (hmem y hy).1 (by rw [(hmem x hx).2, (hmem y hy).2]))
      simp only [hfold]

/-- The merge fold's maps over two permuted inputs are permutations of
each other (under the per-key uniqueness side condition). -/
theorem mergeMap_perm {L₁ L₂ : List Message} (hperm : L₁.Perm L₂)
    (h1 : ∀ x ∈ L₁, ∀ y ∈ L₁, stableClientKey x = stableClientKey y →
      x = y ∨ (x.deliveryState = DeliveryState.sent ↔ y.deliveryState ≠ DeliveryState.sent)) :
    (mergeMap L₁).Perm (mergeMap L₂) := by
  have nd₁k := (mergeMap_inv L₁).1
  have nd₂k := (mergeMap_inv L₂).1
  have nd₁ : (mergeMap L₁).Nodup := List.Nodup.of_map Prod.fst nd₁k
  have nd₂ : (mergeMap L₂).Nodup := List.Nodup.of_map Prod.fst nd₂k
  rw [List.perm_ext_iff_of_nodup nd₁ nd₂]
  intro p
  obtain ⟨k, v⟩ := p
  constructor
  · intro hp
    have hget := jsMapGet_of_mem_of_nodup nd₁k hp
    rw [jsMapGet_mergeMap_perm hperm h1 k] at hget
    exact mem_of_jsMapGet_some hget
  · intro hp
    have hget := jsMapGet_of_mem_of_nodup nd₂k hp
    rw [← jsMapGet_mergeMap_perm hperm h1 k] at hget
    exact mem_of_jsMapGet_some hget

/-! ## Claim C3 -/

/-- A "sent" message used in the C3 counterexample. -/
def conflictSentA : Message :=
  ⟨"m-a", "c1", "t1", "visitor-1", ParticipantRole.visitor, "first", 1, 1, DeliveryState.sent⟩

/-- A second, different "sent" message with the same stable identity key. -/
def conflictSentB : Message :=
  ⟨"m-b", "c1", "t1", "visitor-1", ParticipantRole.visitor, "second", 2, 2, DeliveryState.sent⟩

/-- C3 counterexample: `mergeMessages` is not
order-of-arguments-independent.  Two distinct messages that share a
stable identity key and are both "sent" resolve last-write-wins, so
permuting the argument sets changes the output. -/
theorem mergeMessages_order_dependent_counterexample :
    conflictSentA.deliveryState = DeliveryState.sent ∧
      conflictSentB.deliveryState = DeliveryState.sent ∧
      stableClientKey conflictSentA = stableClientKey conflictSentB ∧
      mergeMessages [some [conflictSentA], some [conflictSentB]] ≠
        mergeMessages [some [conflictSentB], some [conflictSentA]] := by
  refine ⟨by decide, by decide, by decide, by decide⟩

/-- C3 (amended): `mergeMessages` is order-of-arguments-independent —
identical output for any two argument lists whose flattened message
multisets coincide, hence under any permutation of the sets and of the
messages within each set — provided (a) any two input messages sharing a
stable identity key are either equal or exactly one of them is "sent",
and (b) messages with different identity keys have different
(createdAt, seq, id) sort keys. -/
theorem mergeMessages_perm_invariant (sets₁ sets₂ : List (Option (List Message)))
    (hperm : (flattenSets sets₁).Perm (flattenSets sets₂))
    (h1 : ∀ x ∈ flattenSets sets₁, ∀ y ∈ flattenSets sets₁,
      stableClientKey x = stableClientKey y →
        x = y ∨ (x.deliveryState = DeliveryState.sent ↔ y.deliveryState ≠ DeliveryState.sent))
    (h2 : ∀ x ∈ flattenSets sets₁, ∀ y ∈ flattenSets sets₁,
      stableClientKey x ≠ stableClientKey y → sortKey x ≠ sortKey y) :
    mergeMessages sets₁ = mergeMessages sets₂ := by
  rw [mergeMessages_eq_flatten, mergeMessages_eq_flatten]
  have hM : (mergeMap (flattenSets sets₁)).Perm (mergeMap (flattenSets sets₂)) :=
    mergeMap_perm hperm h1
  have hv : ((mergeMap (flattenSets sets₁)).map Prod.snd).Perm
      ((mergeMap (flattenSets sets₂)).map Prod.snd) := hM.map _
  have hpair₁ : ((mergeMap (flattenSets sets₁)).map Prod.snd).Pairwise
      (fun a b => sortKey a ≠ sortKey b) := by
    rw [List.pairwise_map]
    have hkeys : (mergeMap (flattenSets sets₁)).Pairwise (fun p q => p.1 ≠ q.1) :=
      (List.pairwise_map).mp (mergeMap_inv (flattenSets sets₁)).1
    refine List.Pairwise.imp_of_mem ?_ hkeys
    intro p q hp hq hne
    obtain ⟨hpk, hpm⟩ := (mergeMap_inv (flattenSets sets₁)).2 p hp
    obtain ⟨hqk, hqm⟩ := (mergeMap_inv (flattenSets sets₁)).2 q hq
    exact h2 p.2 hpm q.2 hqm (by rw [hpk, hqk]; exact hne)
  have hpair₂ : ((mergeMap (flattenSets sets₂)).map Prod.snd).Pairwise
      (fun a b => sortKey a ≠ sortKey b) :=
    (List.Perm.pairwise_iff (fun h => h.symm) hv).mp hpair₁
  have hsortedLT : ∀ (values : List Message),
      values.Pairwise (fun a b => sortKey a ≠ sortKey b) →
      List.Sorted msgLT (sortMessages values) := by
    intro values hpair
    have hle : List.Sorted msgLE (sortMessages values) :=
      List.sorted_insertionSort msgLE values
    have hne : (sortMessages values).Pairwise (fun a b => sortKey a ≠ sortKey b) :=
      (List.Perm.pairwise_iff (fun h => h.symm) (List.perm_insertionSort msgLE values)).mpr hpair
    exact (hle.and hne).imp (fun h => lt_of_le_of_ne h.1 h.2)
  have hout : (sortMessages ((mergeMap (flattenSets sets₁)).map Prod.snd)).Perm
      (sortMessages ((mergeMap (flattenSets sets₂)).map Prod.snd)) :=
    ((List.perm_insertionSort msgLE _).trans hv).trans
      (List.perm_insertionSort msgLE _).symm
  exact List.eq_of_perm_of_sorted hout (hsortedLT _ hpair₁) (hsortedLT _ hpair₂)

/-- Distinct-key "sent" messages used in the C3 witness (the spec's §8
two-set ordering scenario). -/
def witM1 : Message :=
  ⟨"m1", "c1", "t1", "visitor-1", ParticipantRole.visitor, "x", 1, 1, DeliveryState.sent⟩

/-- Second distinct-key message of the C3 witness. -/
def witM2 : Message :=
  ⟨"m2-confirmed", "c2", "t1", "visitor-1", ParticipantRole.visitor, "y", 2, 2,
    DeliveryState.sent⟩

theorem mergeMessages_perm_invariant_witness :
    (flattenSets [some [witM2], some [witM1]]).Perm
        (flattenSets [some [witM1], some [witM2]]) ∧
      (∀ x ∈ flattenSets [some [witM2], some [witM1]],
        ∀ y ∈ flattenSets [some [witM2], some [witM1]],
          stableClientKey x = stableClientKey y →
            x = y ∨ (x.deliveryState = DeliveryState.sent ↔
              y.deliveryState ≠ DeliveryState.sent)) ∧
      (∀ x ∈ flattenSets [some [witM2], some [witM1]],
        ∀ y ∈ flattenSets [some [witM2], some [witM1]],
          stableClientKey x ≠ stableClientKey y → sortKey x ≠ sortKey y) ∧
      mergeMessages [some [witM2], some [witM1]] = mergeMessages [some [witM1], some [witM2]] :=
  ⟨by decide, by decide, by decide,
    mergeMessages_perm_invariant [some [witM2], some [witM1]] [some [witM1], some [witM2]]
      (by decide) (by decide) (by decide)⟩

/-! ## Claim C4 -/

/-- C4: every adjacent pair of the `mergeMessages` output is
non-decreasing under the (createdAt, seq, id) tuple order — indeed the
whole output is pairwise sorted under that total order — and no two
output entries share a stable identity key. -/
theorem merge_output_sorted_and_key_unique (sets : List (Option (List Message))) :
    List.Chain' msgLE (mergeMessages sets) ∧
      List.Sorted msgLE (mergeMessages sets) ∧
      ((mergeMessages sets).map stableClientKey).Nodup := by
  rw [mergeMessages_eq_flatten]
  set values := (mergeMap (flattenSets sets)).map Prod.snd with hvalues
  have hsorted : List.Sorted msgLE (sortMessages values) :=
    List.sorted_insertionSort msgLE values
  refine ⟨hsorted.chain', hsorted, ?_⟩
  have hperm : (sortMessages values).Perm values := List.perm_insertionSort msgLE values
  have hmapkeys : values.map stableClientKey = (mergeMap (flattenSets sets)).map Prod.fst := by
    rw [hvalues, List.map_map]
    refine List.map_congr_left ?_
    intro p hp
    exact ((mergeMap_inv (flattenSets sets)).2 p hp).1
  have hnd : (values.map stableClientKey).Nodup := by
    rw [hmapkeys]
    exact (mergeMap_inv (flattenSets sets)).1
  exact ((hperm.map stableClientKey).nodup_iff).mpr hnd

/-! ## Claim C1 -/

/-- C1: an optimistic placeholder with deliveryState "sending" and a
confirmed message with deliveryState "sent" that share the same stable
identity key collapse, under `mergeMessages`, to exactly one entry — the
confirmed message (hence its id, seq and deliveryState) — in either
argument order. -/
theorem merge_optimistic_confirmed_collapse
    (opt conf : Message)
    (hopt : opt.deliveryState = DeliveryState.sending)
    (hconf : conf.deliveryState = DeliveryState.sent)
    (hkey : stableClientKey opt = stableClientKey conf) :
    mergeMessages [some [opt], some [conf]] = [conf] ∧
      mergeMessages [some [conf], some [opt]] = [conf] := by
  constructor
  · simp [mergeMessages, mergeStep, jsMapGet, jsMapSet, hkey, mergeMessageState,
      spreadMessage, hopt, hconf, sortMessages, List.insertionSort, List.orderedInsert]
  · simp [mergeMessages, mergeStep, jsMapGet, jsMapSet, ← hkey, mergeMessageState,
      spreadMessage, hopt, hconf, sortMessages, List.insertionSort, List.orderedInsert]

/-- The optimistic placeholder of the spec's §8 collapsing scenario. -/
def optimisticC2 : Message :=
  ⟨"optimistic-c2", "c2", "t1", "visitor-1", ParticipantRole.visitor, "hi", 100, 200,
    DeliveryState.sending⟩

/-- The confirmed counterpart of the spec's §8 collapsing scenario. -/
def dbC2 : Message :=
  ⟨"db-c2", "c2", "t1", "visitor-1", ParticipantRole.visitor, "hi", 100, 201,
    DeliveryState.sent⟩

theorem merge_optimistic_confirmed_collapse_witness :
    optimisticC2.deliveryState = DeliveryState.sending ∧
      dbC2.deliveryState = DeliveryState.sent ∧
      stableClientKey optimisticC2 = stableClientKey dbC2 ∧
      (mergeMessages [some [optimisticC2], some [dbC2]] = [dbC2] ∧
        mergeMessages [some [dbC2], some [optimisticC2]] = [dbC2]) ∧
      dbC2.id = "db-c2" ∧ dbC2.seq = 201 :=
  ⟨by decide, by decide, by decide,
    merge_optimistic_confirmed_collapse optimisticC2 dbC2 (by decide) (by decide) (by decide),
    by decide, by decide⟩

/-! ## Claim C2 -/

/-- C2: once the merge fold holds a "sent" entry, folding in another
message with the same identity key and a different deliveryState leaves
the entry — indeed the whole accumulated map — unchanged in every field. -/
theorem merge_sent_never_regresses
    (acc : List (String × Message)) (existing incoming : Message)
    (hsent : existing.deliveryState = DeliveryState.sent)
    (hinc : incoming.deliveryState ≠ DeliveryState.sent)
    (hget : jsMapGet (stableClientKey incoming) acc = some existing) :
    mergeMessageState existing incoming = existing ∧ mergeStep acc incoming = acc := by
  have hmms : mergeMessageState existing incoming = existing := by
    unfold mergeMessageState
    rw [if_pos ⟨hsent, hinc⟩]
  refine ⟨hmms, ?_⟩
  rw [mergeStep_of_get_some hget, hmms]
  exact jsMapSet_of_get_some hget

theorem merge_sent_never_regresses_witness :
    dbC2.deliveryState = DeliveryState.sent ∧
      optimisticC2.deliveryState ≠ DeliveryState.sent ∧
      jsMapGet (stableClientKey optimisticC2) [("t1:c2", dbC2)] = some dbC2 ∧
      (mergeMessageState dbC2 optimisticC2 = dbC2 ∧
        mergeStep [("t1:c2", dbC2)] optimisticC2 = [("t1:c2", dbC2)]) :=
  ⟨by decide, by decide, by decide,
    merge_sent_never_regresses [("t1:c2", dbC2)] dbC2 optimisticC2
      (by decide) (by decide) (by decide)⟩

/-! ## Liveness tracker (liveness.ts) -/

def HEARTBEAT_INTERVAL_MS : Int := 8000

def HEARTBEAT_TTL_MS : Int := 20000

/-- The closure state of `createLivenessApi`:  `online`, `channelStatus`,
`latestHeartbeatAt` and the per-participant heartbeat map. -/
structure LivenessState where
  threadId : String
  online : Bool
  channelStatus : RealtimeChannelStatus
  latestHeartbeatAt : Option Int
  participantHeartbeats : List (String × Int)
deriving DecidableEq, Repr

/-- Initial state of `createLivenessApi`. -/
def createLivenessApi (threadId : String) : LivenessState :=
  ⟨threadId, true, RealtimeChannelStatus.CLOSED, none, []⟩

/-- `isFresh`: JS `!value` is truthy for `null` and for the number 0, so
a timestamp of exactly 0 is treated like an absent one. -/
def isFresh (value : Option Int) (now : Int) : Bool :=
  match value with
  | none => false
  | some v => if v = 0 then false else decide (now - v ≤ HEARTBEAT_TTL_MS)

def setOnline (s : LivenessState) (value : Bool) : LivenessState :=
  { s with online := value }

def setChannelStatus (s : LivenessState) (status : RealtimeChannelStatus) : LivenessState :=
  { s with channelStatus := status }

/-- `upsertHeartbeat`: drop out-of-order heartbeats, otherwise store the
participant's timestamp and bump the global maximum. -/
def upsertHeartbeat (s : LivenessState) (participantId : String) (atMs : Int) : LivenessState :=
  let current := (jsMapGet participantId s.participantHeartbeats).getD 0
  if atMs < current then s
  else
    { s with
      participantHeartbeats := jsMapSet participantId atMs s.participantHeartbeats,
      latestHeartbeatAt := some (max (s.latestHeartbeatAt.getD 0) atMs) }

/-- `removeParticipant`: hard delete of the per-participant entry; the
global `latestHeartbeatAt` is not touched. -/
def removeParticipant (s : LivenessState) (participantId : String) : LivenessState :=
  if jsMapGet participantId s.participantHeartbeats = none then s
  else { s with participantHeartbeats := jsMapDelete participantId s.participantHeartbeats }

def isServiceLive (s : LivenessState) (now : Int) : Bool :=
  s.online && (s.channelStatus == RealtimeChannelStatus.SUBSCRIBED) &&
    isFresh s.latestHeartbeatAt now

def isParticipantLive (s : LivenessState) (participantId : String) (now : Int) : Bool :=
  isFresh (jsMapGet participantId s.participantHeartbeats) now

/-! ## Claim C7 -/

/-- The spec's formula for service liveness, stated verbatim as the
refinement target of C7: online, channel SUBSCRIBED, and
`now - latestHeartbeatAt ≤ 20000`. -/
def specServiceLive (s : LivenessState) (now : Int) : Prop :=
  s.online = true ∧ s.channelStatus = RealtimeChannelStatus.SUBSCRIBED ∧
    ∃ h, s.latestHeartbeatAt = some h ∧ now - h ≤ HEARTBEAT_TTL_MS

/-- C7 counterexample: after a single heartbeat at t=0 the tracker is
online, subscribed, and within the TTL at now=5 — the spec's formula
holds — yet `isServiceLive` returns false, because `isFresh` treats the
timestamp 0 as absent (JS falsy check). -/
theorem isServiceLive_iff_counterexample :
    specServiceLive
        (upsertHeartbeat
          (setChannelStatus (setOnline (createLivenessApi "t1") true)
            RealtimeChannelStatus.SUBSCRIBED)
          "visitor-1" 0)
        5 ∧
      isServiceLive
          (upsertHeartbeat
            (setChannelStatus (setOnline (createLivenessApi "t1") true)
              RealtimeChannelStatus.SUBSCRIBED)
            "visitor-1" 0)
          5 = false :=
  ⟨⟨by decide, by decide, 0, by decide, by decide⟩, by decide⟩

/-- C7 (amended): `isServiceLive(now)` is true iff the tracker is
online, the channel is SUBSCRIBED, and `latestHeartbeatAt` is a non-null
and non-zero timestamp `h` with `now - h ≤ 20000`; in particular, after
a single heartbeat at t=0, `isServiceLive(20001)` is false. -/
theorem isServiceLive_iff (s : LivenessState) (now : Int) :
    (isServiceLive s now = true ↔
      s.online = true ∧ s.channelStatus = RealtimeChannelStatus.SUBSCRIBED ∧
        ∃ h, s.latestHeartbeatAt = some h ∧ h ≠ 0 ∧ now - h ≤ HEARTBEAT_TTL_MS) ∧
      isServiceLive
          (upsertHeartbeat
            (setChannelStatus (setOnline (createLivenessApi "t1") true)
              RealtimeChannelStatus.SUBSCRIBED)
            "visitor-1" 0)
          20001 = false := by
  constructor
  · cases hlh : s.latestHeartbeatAt with
    | none => simp [isServiceLive, isFresh, hlh]
    | some v =>
      by_cases hv : v = 0
      · subst hv
        simp [isServiceLive, isFresh, hlh]
      · simp [isServiceLive, isFresh, hlh, hv, Bool.and_eq_true, beq_iff_eq, and_assoc]
  · decide

/-! ## Claim C10 -/

/-- The mutating operations of the liveness API. -/
inductive LivenessOp where
  | setOnline (value : Bool)
  | setChannelStatus (status : RealtimeChannelStatus)
  | upsertHeartbeat (participantId : String) (atMs : Int)
  | removeParticipant (participantId : String)

def applyLivenessOp (s : LivenessState) : LivenessOp → LivenessState
  | LivenessOp.setOnline v => setOnline s v
  | LivenessOp.setChannelStatus st => setChannelStatus s st
  | LivenessOp.upsertHeartbeat pid t => upsertHeartbeat s pid t
  | LivenessOp.removeParticipant pid => removeParticipant s pid

/-- Order on optional heartbeat timestamps, with "no heartbeat yet" as
the bottom element. -/
def heartbeatLE : Option Int → Option Int → Prop
  | none, _ => True
  | some _, none => False
  | some a, some b => a ≤ b

theorem heartbeatLE_refl (x : Option Int) : heartbeatLE x x := by
  cases x with
  | none => trivial
  | some a => exact le_refl a

theorem jsMapDelete_of_get_none {β : Type} {k : String} {m : List (String × β)}
    (h : jsMapGet k m = none) : jsMapDelete k m = m := by
  induction m with
  | nil => rfl
  | cons p rest ih =>
    obtain ⟨k₀, v₀⟩ := p
    by_cases hk : k₀ = k
    · subst hk
      simp [jsMapGet] at h
    · simp [jsMapGet, hk] at h
      simp [jsMapDelete, hk, ih h]

/-- C10: `latestHeartbeatAt` is monotone non-decreasing under every
liveness operation; `removeParticipant` deletes the per-participant
entry but never touches `latestHeartbeatAt` (or any other field); and in
particular, after the only heartbeating participant (heartbeat at t=5)
is removed, the service still counts as live within the 20000ms TTL. -/
theorem latestHeartbeat_monotone_and_remove_preserves :
    (∀ (s : LivenessState) (op : LivenessOp),
      heartbeatLE s.latestHeartbeatAt (applyLivenessOp s op).latestHeartbeatAt) ∧
      (∀ (s : LivenessState) (pid : String),
        (removeParticipant s pid).latestHeartbeatAt = s.latestHeartbeatAt ∧
          (removeParticipant s pid).participantHeartbeats =
            jsMapDelete pid s.participantHeartbeats ∧
          (removeParticipant s pid).online = s.online ∧
          (removeParticipant s pid).channelStatus = s.channelStatus) ∧
      (isServiceLive
          (removeParticipant
            (upsertHeartbeat
              (setChannelStatus (setOnline (createLivenessApi "t1") true)
                RealtimeChannelStatus.SUBSCRIBED)
              "visitor-1" 5)
            "visitor-1")
          20005 = true ∧
        (removeParticipant
            (upsertHeartbeat
              (setChannelStatus (setOnline (createLivenessApi "t1") true)
                RealtimeChannelStatus.SUBSCRIBED)
              "visitor-1" 5)
            "visitor-1").participantHeartbeats = []) := by
  refine ⟨?_, ?_, by decide, by decide⟩
  · intro s op
    cases op with
    | setOnline v => exact heartbeatLE_refl _
    | setChannelStatus st => exact heartbeatLE_refl _
    | removeParticipant pid =>
      show heartbeatLE s.latestHeartbeatAt (removeParticipant s pid).latestHeartbeatAt
      unfold removeParticipant
      split
      · exact heartbeatLE_refl _
      · exact heartbeatLE_refl _
    | upsertHeartbeat pid t =>
      show heartbeatLE s.latestHeartbeatAt (upsertHeartbeat s pid t).latestHeartbeatAt
      by_cases ht : t < (jsMapGet pid s.participantHeartbeats).getD 0
      · simp only [upsertHeartbeat, if_pos ht]
        exact heartbeatLE_refl _
      · simp only [upsertHeartbeat, if_neg ht]
        cases hlh : s.latestHeartbeatAt with
        | none => trivial
        | some l =>
          show l ≤ max ((some l : Option Int).getD 0) t
          simp
  · intro s pid
    unfold removeParticipant
    split
    · rename_i hnone
      exact ⟨rfl, (jsMapDelete_of_get_none hnone).symm, rfl, rfl⟩
    · exact ⟨rfl, rfl, rfl, rfl⟩

/-! ## Inbox patch engine (utils/inbox.ts) -/

structure ApplyMessageToInboxOptions where
  agentId : String
  activeThreadId : Option String
deriving DecidableEq, Repr

structure ApplyMessageToInboxResult where
  items : List InboxThread
  insertedUnknownThread : Bool
deriving DecidableEq, Repr

/-- `left` sorts no later than `right` under
`sortInboxThreadComparator` (comparator result ≤ 0): unread count
descending, then `updatedAt` descending. -/
def inboxLE (left right : InboxThread) : Prop :=
  right.unreadCount - left.unreadCount < 0 ∨
    (right.unreadCount - left.unreadCount = 0 ∧
      right.thread.updatedAt - left.thread.updatedAt ≤ 0)

instance : DecidableRel inboxLE := fun a b => by
  unfold inboxLE
  infer_instance

def placeholderThread (threadId : String) (createdAt : Int) : Thread :=
  ⟨threadId, ThreadStatus.open_, createdAt, createdAt⟩

/-- `sortInboxThreads`: stable sort by the inbox comparator. -/
def sortInboxThreads (items : List InboxThread) : List InboxThread :=
  List.insertionSort inboxLE items

/-- `applyMessageToInbox`: patch one inbound message into the agent
inbox.  `findIdx? = none` models JS `findIndex` returning -1; the inner
`none` branch mirrors the defensive `if (!existing)` in the source. -/
def applyMessageToInbox (current : Option (List InboxThread)) (message : Message)
    (options : ApplyMessageToInboxOptions) : ApplyMessageToInboxResult :=
  let nextItems := current.getD []
  match nextItems.findIdx? (fun item => item.thread.id == message.threadId) with
  | none =>
      let unreadCount : Int :=
        if message.senderId = options.agentId ∨ some message.threadId = options.activeThreadId
          then 0 else 1
      ⟨sortInboxThreads
          (nextItems ++
            [⟨placeholderThread message.threadId message.createdAt, unreadCount,
              some message⟩]),
        true⟩
  | some threadIndex =>
      match nextItems[threadIndex]? with
      | none => ⟨sortInboxThreads nextItems, false⟩
      | some existing =>
          let nextUnreadCount :=
            if message.senderId = options.agentId then existing.unreadCount
            else if some message.threadId = options.activeThreadId then 0
            else existing.unreadCount + 1
          ⟨sortInboxThreads
              (nextItems.set threadIndex
                ⟨⟨existing.thread.id, existing.thread.status, existing.thread.createdAt,
                    max existing.thread.updatedAt message.createdAt⟩,
                  nextUnreadCount, some message⟩),
            false⟩

/-! ## Claim C8 -/

/-- C8: when the message's thread is present in the inbox (first match
at index `i`), `applyMessageToInbox` replaces that entry — up to the
final re-sort, stated as a permutation — by one whose `lastMessage` is
the message, whose `updatedAt` is the max of the existing `updatedAt`
and the message's `createdAt`, and whose `unreadCount` is unchanged for
the agent's own message, reset to 0 for the active thread, and
incremented by exactly 1 otherwise; no unknown-thread insertion
happens. -/
theorem applyMessageToInbox_existing_thread
    (items : List InboxThread) (message : Message) (options : ApplyMessageToInboxOptions)
    (i : Nat) (old : InboxThread)
    (hidx : items.findIdx? (fun item => item.thread.id == message.threadId) = some i)
    (hget : items[i]? = some old) :
    (applyMessageToInbox (some items) message options).insertedUnknownThread = false ∧
      (applyMessageToInbox (some items) message options).items.Perm
        (items.set i
          ⟨⟨old.thread.id, old.thread.status, old.thread.createdAt,
              max old.thread.updatedAt message.createdAt⟩,
            (if message.senderId = options.agentId then old.unreadCount
              else if some message.threadId = options.activeThreadId then 0
              else old.unreadCount + 1),
            some message⟩) := by
  unfold applyMessageToInbox
  simp only [Option.getD_some, hidx, hget]
  exact ⟨trivial, List.perm_insertionSort inboxLE _⟩

/-- Inbox entry used in the C8 witness. -/
def witInboxEntry : InboxThread :=
  ⟨⟨"t1", ThreadStatus.open_, 10, 50⟩, 2, none⟩

/-- Inbound visitor message used in the C8 witness. -/
def witInboxMessage : Message :=
  ⟨"m9", "c9", "t1", "visitor-1", ParticipantRole.visitor, "hello", 60, 7,
    DeliveryState.sent⟩

theorem applyMessageToInbox_existing_thread_witness :
    [witInboxEntry].findIdx? (fun item => item.thread.id == witInboxMessage.threadId) = some 0 ∧
      [witInboxEntry][0]? = some witInboxEntry ∧
      ((applyMessageToInbox (some [witInboxEntry]) witInboxMessage
            ⟨"agent-1", none⟩).insertedUnknownThread = false ∧
        (applyMessageToInbox (some [witInboxEntry]) witInboxMessage
            ⟨"agent-1", none⟩).items.Perm
          ([witInboxEntry].set 0
            ⟨⟨witInboxEntry.thread.id, witInboxEntry.thread.status,
                witInboxEntry.thread.createdAt,
                max witInboxEntry.thread.updatedAt witInboxMessage.createdAt⟩,
              (if witInboxMessage.senderId = "agent-1" then witInboxEntry.unreadCount
                else if some witInboxMessage.threadId = (none : Option String) then 0
                else witInboxEntry.unreadCount + 1),
              some witInboxMessage⟩)) :=
  ⟨by decide, by decide,
    applyMessageToInbox_existing_thread [witInboxEntry] witInboxMessage
      ⟨"agent-1", none⟩ 0 witInboxEntry (by decide) (by decide)⟩

/-! ## Typing signal controller (createTypingController)

The controller's timers are modelled by their absolute fire times:
`debounceTimer`/`idleTimer` hold the deadline of a pending setTimeout,
`refreshTimer` the next fire time of the setInterval.  A fired timeout is
no longer pending, so firing resets its slot to `none` (the stale JS
handle is only ever passed to clearTimeout, a no-op).  Emissions are
returned as a list of payloads; `atMs` is the payload's `at` field
(`Date.now()` at emission time). -/

def TYPING_DEBOUNCE_MS : Int := 300

def TYPING_IDLE_MS : Int := 3000

def TYPING_REFRESH_MS : Int := 1200

structure TypingPayload where
  threadId : String
  participantId : String
  isTyping : Bool
  atMs : Int
deriving DecidableEq, Repr

structure TypingState where
  currentThreadId : Option String
  currentParticipantId : String
  currentCanEmit : Bool
  isTyping : Bool
  lastActivityAt : Option Int
  debounceTimer : Option Int
  idleTimer : Option Int
  refreshTimer : Option Int
deriving DecidableEq, Repr

/-- Initial controller state from `createTypingController`'s options. -/
def createTypingController (threadId : Option String) (participantId : String)
    (canEmit : Bool) : TypingState :=
  ⟨threadId, participantId, canEmit, false, none, none, none, none⟩

def clearDebounce (s : TypingState) : TypingState := { s with debounceTimer := none }

def clearIdle (s : TypingState) : TypingState := { s with idleTimer := none }

def clearRefresh (s : TypingState) : TypingState := { s with refreshTimer := none }

/-- `emit(typing, force)`: requires a thread id; non-forced emission
requires the `canEmit` gate; a repeated `false` emission is suppressed
(`isTyping === typing && !typing`). -/
def emit (now : Int) (typing force : Bool) (s : TypingState) :
    TypingState × List TypingPayload :=
  match s.currentThreadId with
  | none => (s, [])
  | some threadId =>
    if !force && !s.currentCanEmit then (s, [])
    else if s.isTyping == typing && !typing then (s, [])
    else ({ s with isTyping := typing },
      [⟨threadId, s.currentParticipantId, typing, now⟩])

/-- `forceStop`: clear all three timers, clear `lastActivityAt`, then
`emit(false, true)`. -/
def forceStop (now : Int) (s : TypingState) : TypingState × List TypingPayload :=
  emit now false true
    { clearRefresh (clearIdle (clearDebounce s)) with lastActivityAt := none }

def scheduleIdleStop (now : Int) (s : TypingState) : TypingState :=
  { clearIdle s with idleTimer := some (now + TYPING_IDLE_MS) }

def ensureRefreshTicker (now : Int) (s : TypingState) : TypingState :=
  if s.refreshTimer.isSome then s
  else { s with refreshTimer := some (now + TYPING_REFRESH_MS) }

/-- `onInputChange(value)`. -/
def onInputChange (now : Int) (value : String) (s : TypingState) :
    TypingState × List TypingPayload :=
  if jsTrim value = "" then forceStop now s
  else
    let s₁ := clearDebounce (scheduleIdleStop now { s with lastActivityAt := some now })
    if !s₁.currentCanEmit then (s₁, [])
    else ({ s₁ with debounceTimer := some (now + TYPING_DEBOUNCE_MS) }, [])

/-- `setCanEmit(canEmit)`. -/
def setCanEmit (now : Int) (canEmit : Bool) (s : TypingState) :
    TypingState × List TypingPayload :=
  let changed := s.currentCanEmit != canEmit
  let s₁ := { s with currentCanEmit := canEmit }
  if changed && !canEmit then forceStop now s₁ else (s₁, [])

/-- The debounce timeout's callback: `emit(true); ensureRefreshTicker()`. -/
def fireDebounce (now : Int) (s : TypingState) : TypingState × List TypingPayload :=
  let r := emit now true false { s with debounceTimer := none }
  (ensureRefreshTicker now r.1, r.2)

/-- The idle timeout's callback: `forceStop()`. -/
def fireIdle (now : Int) (s : TypingState) : TypingState × List TypingPayload :=
  forceStop now { s with idleTimer := none }

/-- The refresh interval's callback (the interval stays scheduled).  The
JS guard `!lastActivityAt` is falsy for `null` and for the number 0. -/
def fireRefresh (now : Int) (s : TypingState) : TypingState × List TypingPayload :=
  let s₁ := { s with refreshTimer := some (now + TYPING_REFRESH_MS) }
  match s₁.lastActivityAt with
  | none => (s₁, [])
  | some lastActivityAt =>
    if lastActivityAt = 0 then (s₁, [])
    else if TYPING_IDLE_MS ≤ now - lastActivityAt then forceStop now s₁
    else emit now true false s₁

def nextTimerDeadline (s : TypingState) : Option Int :=
  ([s.debounceTimer, s.idleTimer, s.refreshTimer].filterMap id).min?

/-- Fire whichever timer is due at time `t` (the runs proved about below
never schedule two timers at the same deadline). -/
def fireAt (t : Int) (s : TypingState) : TypingState × List TypingPayload :=
  if s.debounceTimer = some t then fireDebounce t s
  else if s.idleTimer = some t then fireIdle t s
  else if s.refreshTimer = some t then fireRefresh t s
  else (s, [])

/-- Event-loop run: repeatedly fire the earliest pending timer whose
deadline is within the horizon, collecting published payloads. -/
def runTimers : Nat → Int → TypingState → TypingState × List TypingPayload
  | 0, _, s => (s, [])
  | Nat.succ fuel, horizon, s =>
    match nextTimerDeadline s with
    | none => (s, [])
    | some t =>
      if t ≤ horizon then
        let r₁ := fireAt t s
        let r₂ := runTimers fuel horizon r₁.1
        (r₂.1, r₁.2 ++ r₂.2)
      else (s, [])

/-! ## Claim C5 -/

/-- C5: starting idle (isTyping=false) with a non-null thread id and
canEmit=true, a single `onInputChange` with a non-empty (after trim)
value at t=0 publishes nothing immediately, publishes nothing while
running the event loop up to t=299, and running it up to t=300 publishes
exactly one payload: isTyping=true at t=300. -/
theorem typing_debounce_emits_once_at_300
    (tid pid v : String) (hv : jsTrim v ≠ "") :
    (onInputChange 0 v (createTypingController (some tid) pid true)).2 = [] ∧
      (runTimers 8 299 (onInputChange 0 v (createTypingController (some tid) pid true)).1).2
        = [] ∧
      (runTimers 8 300 (onInputChange 0 v (createTypingController (some tid) pid true)).1).2
        = [⟨tid, pid, true, 300⟩] := by
  have h0 : onInputChange 0 v (createTypingController (some tid) pid true) =
      (⟨some tid, pid, true, false, some 0, some 300, some 3000, none⟩, []) := by
    unfold onInputChange
    rw [if_neg hv]
    rfl
  refine ⟨by rw [h0], by rw [h0]; rfl, by rw [h0]; rfl⟩

theorem typing_debounce_emits_once_at_300_witness :
    jsTrim "x" ≠ "" ∧
      ((onInputChange 0 "x" (createTypingController (some "thread-1") "visitor-1" true)).2
          = [] ∧
        (runTimers 8 299
            (onInputChange 0 "x"
              (createTypingController (some "thread-1") "visitor-1" true)).1).2 = [] ∧
        (runTimers 8 300
            (onInputChange 0 "x"
              (createTypingController (some "thread-1") "visitor-1" true)).1).2
          = [⟨"thread-1", "visitor-1", true, 300⟩]) :=
  ⟨by decide, typing_debounce_emits_once_at_300 "thread-1" "visitor-1" "x" (by decide)⟩

/-! ## Claim C6 -/

/-- A controller state with a thread id that is currently not typing,
with all three timers pending. -/
def typingIdleState : TypingState :=
  ⟨some "thread-1", "visitor-1", true, false, some 7, some 42, some 43, some 44⟩

/-- C6 counterexample: `forceStop` on a state that is not currently
typing publishes nothing — the duplicate `false` emission is suppressed
by `emit` even when forced — contradicting "publishes an isTyping=false
payload … regardless of whether isTyping is currently true or false". -/
theorem forceStop_already_false_counterexample :
    typingIdleState.currentThreadId = some "thread-1" ∧
      (forceStop 9 typingIdleState).2 = [] :=
  ⟨by decide, by decide⟩

/-- C6 (amended): with a non-null thread id, `forceStop` always clears
the debounce, idle and refresh timers and `lastActivityAt`, and —
bypassing the `canEmit` gate — publishes exactly one isTyping=false
payload when the controller is currently typing; when it is already not
typing, the duplicate false emission is suppressed and nothing is
published. -/
theorem forceStop_clears_and_emits
    (now : Int) (s : TypingState) (tid : String)
    (h : s.currentThreadId = some tid) :
    (forceStop now s).1.debounceTimer = none ∧
      (forceStop now s).1.idleTimer = none ∧
      (forceStop now s).1.refreshTimer = none ∧
      (forceStop now s).1.lastActivityAt = none ∧
      (s.isTyping = true →
        (forceStop now s).2 = [⟨tid, s.currentParticipantId, false, now⟩]) ∧
      (s.isTyping = false → (forceStop now s).2 = []) := by
  cases hit : s.isTyping <;>
    simp [forceStop, emit, clearDebounce, clearIdle, clearRefresh, h, hit]

/-- A controller state that is currently typing while the `canEmit` gate
is off. -/
def typingActiveGateOffState : TypingState :=
  ⟨some "thread-1", "visitor-1", false, true, some 5, some 10, some 20, some 30⟩

theorem forceStop_clears_and_emits_witness :
    typingActiveGateOffState.currentThreadId = some "thread-1" ∧
      ((forceStop 99 typingActiveGateOffState).1.debounceTimer = none ∧
        (forceStop 99 typingActiveGateOffState).1.idleTimer = none ∧
        (forceStop 99 typingActiveGateOffState).1.refreshTimer = none ∧
        (forceStop 99 typingActiveGateOffState).1.lastActivityAt = none ∧
        (typingActiveGateOffState.isTyping = true →
          (forceStop 99 typingActiveGateOffState).2 =
            [⟨"thread-1", typingActiveGateOffState.currentParticipantId, false, 99⟩]) ∧
        (typingActiveGateOffState.isTyping = false →
          (forceStop 99 typingActiveGateOffState).2 = [])) :=
  ⟨by decide, forceStop_clears_and_emits 99 typingActiveGateOffState "thread-1" (by decide)⟩

/-! ## Optimistic send gate (useAgentThread.ts sendInternal)

The visitor hook's `sendInternal` is structurally identical; the agent
variant is embedded. -/

inductive MessageValidationReason where
  | empty
  | too_long
  | sql_injection
deriving DecidableEq, Repr

structure MessageValidationResult where
  isValid : Bool
  reason : Option MessageValidationReason
  value : String
deriving DecidableEq, Repr

/-- `makeOptimisticMessage` (agent app): id is "optimistic-" + clientId,
`seq` provisionally equals `createdAt`, senderRole "agent". -/
def makeOptimisticMessage (clientId threadId senderId body : String) (createdAt : Int)
    (deliveryState : DeliveryState) : Message :=
  ⟨"optimistic-" ++ clientId, clientId, threadId, senderId, ParticipantRole.agent, body,
    createdAt, createdAt, deliveryState⟩

/-- The `canSendMessages` gate of the agent hook: `threadId &&
resolvedLiveMeta?.online && resolvedLiveMeta.channelStatus ===
"SUBSCRIBED" && window?.navigator.onLine`. -/
def canSendMessages (threadId : Option String)
    (liveMeta : Option (Bool × RealtimeChannelStatus)) (navigatorOnLine : Bool) : Bool :=
  threadId.isSome &&
    (match liveMeta with
      | none => false
      | some (online, channelStatus) =>
        online && (channelStatus == RealtimeChannelStatus.SUBSCRIBED)) &&
    navigatorOnLine

/-- Externally visible effects of one `sendInternal` run, in order. -/
inductive SendEffect where
  | setOptimistic (threadId : String) (message : Message)
  | markOptimisticFailed (threadId : String) (clientId : String) (fallback : Message)
  | repoSendMessage (threadId clientId senderId : String) (senderRole : ParticipantRole)
      (body : String) (createdAt : Int)
  | upsertRealtimeMessage (threadId : String) (message : Message)
  | removeOptimistic (threadId : String) (clientId : String)
  | gatewaySendMessage (threadId : String) (message : Message)
deriving DecidableEq, Repr

/-- An effect is a network attempt when it is the repository write or
the gateway broadcast. -/
def SendEffect.isNetworkAttempt : SendEffect → Bool
  | SendEffect.repoSendMessage .. => true
  | SendEffect.gatewaySendMessage .. => true
  | _ => false

/-- `sendInternal(body, existingClientId?)` of the agent hook, as its
trace of effects.  Parameters stand for the ambient values the closure
reads: `validate` is `validateMessageBody` (whose regex blocklist stays
outside this embedding — the theorem below holds for every validator),
`agentId` is AGENT_ID, `freshClientId` is the value `createId("client")`
would return, `nowMs` is `Date.now()`, `canSend` is the captured
`canSendMessages` gate, and `repoOutcome` the repository write's result.
A gateway broadcast failure, which the same catch would also route to
`markOptimisticFailed`, is not modelled; no claim depends on the
post-write failure path. -/
def sendInternal (validate : String → MessageValidationResult) (agentId : String)
    (threadId : Option String) (canSend : Bool) (body : String)
    (existingClientId : Option String) (freshClientId : String) (nowMs : Int)
    (repoOutcome : Except Unit Message) : List SendEffect :=
  match threadId with
  | none => []
  | some targetThreadId =>
    let validation := validate body
    if !validation.isValid then []
    else
      let safeBody := validation.value
      let createdAt := nowMs
      let clientId := existingClientId.getD freshClientId
      let optimistic :=
        makeOptimisticMessage clientId targetThreadId agentId safeBody createdAt
          DeliveryState.sending
      SendEffect.setOptimistic targetThreadId optimistic ::
        (if !canSend then
          [SendEffect.markOptimisticFailed targetThreadId clientId optimistic]
        else
          match repoOutcome with
          | Except.ok message =>
              [SendEffect.repoSendMessage targetThreadId clientId agentId
                  ParticipantRole.agent safeBody createdAt,
                SendEffect.upsertRealtimeMessage targetThreadId message,
                SendEffect.removeOptimistic targetThreadId clientId,
                SendEffect.gatewaySendMessage targetThreadId message]
          | Except.error _ =>
              [SendEffect.repoSendMessage targetThreadId clientId agentId
                  ParticipantRole.agent safeBody createdAt,
                SendEffect.markOptimisticFailed targetThreadId clientId optimistic])

/-! ## Claim C9 -/

/-- C9: with a valid body and a non-null target thread, when the live
meta is not online-with-SUBSCRIBED-channel the `canSendMessages` gate is
false, and `sendInternal` registers the optimistic placeholder, then
immediately marks it failed, and attempts no repository write and no
gateway broadcast. -/
theorem sendInternal_gate_false
    (validate : String → MessageValidationResult) (agentId tid body : String)
    (existingClientId : Option String) (freshClientId : String) (nowMs : Int)
    (repoOutcome : Except Unit Message)
    (liveMeta : Option (Bool × RealtimeChannelStatus)) (navigatorOnLine : Bool)
    (hvalid : (validate body).isValid = true)
    (hgate : ∀ online channelStatus, liveMeta = some (online, channelStatus) →
      ¬(online = true ∧ channelStatus = RealtimeChannelStatus.SUBSCRIBED)) :
    canSendMessages (some tid) liveMeta navigatorOnLine = false ∧
      sendInternal validate agentId (some tid)
          (canSendMessages (some tid) liveMeta navigatorOnLine) body existingClientId
          freshClientId nowMs repoOutcome =
        [SendEffect.setOptimistic tid
            (makeOptimisticMessage (existingClientId.getD freshClientId) tid agentId
              (validate body).value nowMs DeliveryState.sending),
          SendEffect.markOptimisticFailed tid (existingClientId.getD freshClientId)
            (makeOptimisticMessage (existingClientId.getD freshClientId) tid agentId
              (validate body).value nowMs DeliveryState.sending)] ∧
      ∀ e ∈ sendInternal validate agentId (some tid)
          (canSendMessages (some tid) liveMeta navigatorOnLine) body existingClientId
          freshClientId nowMs repoOutcome, e.isNetworkAttempt = false := by
  have hcs : canSendMessages (some tid) liveMeta navigatorOnLine = false := by
    cases liveMeta with
    | none => simp [canSendMessages]
    | some p =>
      obtain ⟨online, channelStatus⟩ := p
      have hng := hgate online channelStatus rfl
      cases online with
      | false => simp [canSendMessages]
      | true =>
        have hns : channelStatus ≠ RealtimeChannelStatus.SUBSCRIBED := fun hc => hng ⟨rfl, hc⟩
        simp [canSendMessages, hns]
  have htrace : sendInternal validate agentId (some tid)
      (canSendMessages (some tid) liveMeta navigatorOnLine) body existingClientId
      freshClientId nowMs repoOutcome =
    [SendEffect.setOptimistic tid
        (makeOptimisticMessage (existingClientId.getD freshClientId) tid agentId
          (validate body).value nowMs DeliveryState.sending),
      SendEffect.markOptimisticFailed tid (existingClientId.getD freshClientId)
        (makeOptimisticMessage (existingClientId.getD freshClientId) tid agentId
          (validate body).value nowMs DeliveryState.sending)] := by
    simp [sendInternal, hcs, hvalid]
  refine ⟨hcs, htrace, ?_⟩
  rw [htrace]
  intro e he
  simp only [List.mem_cons, List.mem_singleton, List.not_mem_nil, or_false] at he
  rcases he with rfl | rfl <;> rfl

theorem sendInternal_gate_false_witness :
    ((fun v => (⟨true, none, v⟩ : MessageValidationResult)) "hello").isValid = true ∧
      (∀ (online : Bool) (channelStatus : RealtimeChannelStatus),
        (some (true, RealtimeChannelStatus.CLOSED) :
            Option (Bool × RealtimeChannelStatus)) = some (online, channelStatus) →
          ¬(online = true ∧ channelStatus = RealtimeChannelStatus.SUBSCRIBED)) ∧
      (canSendMessages (some "t1") (some (true, RealtimeChannelStatus.CLOSED)) true = false ∧
        sendInternal (fun v => ⟨true, none, v⟩) "agent-1" (some "t1")
            (canSendMessages (some "t1") (some (true, RealtimeChannelStatus.CLOSED)) true)
            "hello" none "client-1" 1000 (Except.error ()) =
          [SendEffect.setOptimistic "t1"
              (makeOptimisticMessage ((none : Option String).getD "client-1") "t1" "agent-1"
                ((fun v => (⟨true, none, v⟩ : MessageValidationResult)) "hello").value 1000
                DeliveryState.sending),
            SendEffect.markOptimisticFailed "t1" ((none : Option String).getD "client-1")
              (makeOptimisticMessage ((none : Option String).getD "client-1") "t1" "agent-1"
                ((fun v => (⟨true, none, v⟩ : MessageValidationResult)) "hello").value 1000
                DeliveryState.sending)] ∧
        ∀ e ∈ sendInternal (fun v => ⟨true, none, v⟩) "agent-1" (some "t1")
            (canSendMessages (some "t1") (some (true, RealtimeChannelStatus.CLOSED)) true)
            "hello" none "client-1" 1000 (Except.error ()),
          e.isNetworkAttempt = false) :=
  ⟨by decide,
    by
      intro online channelStatus h hcontra
      obtain ⟨rfl, rfl⟩ := hcontra
      exact absurd h (by decide),
    sendInternal_gate_false (fun v => ⟨true, none, v⟩) "agent-1" "t1" "hello" none "client-1"
      1000 (Except.error ()) (some (true, RealtimeChannelStatus.CLOSED)) true
      (by decide)
      (by
        intro online channelStatus h hcontra
        obtain ⟨rfl, rfl⟩ := hcontra
        exact absurd h (by decide))⟩

end Minicom
